import Mathlib

/-!
# Verification of the RCN (Remote Controller Network) protocol core

Shallow embedding of `rcn_common.h`, `rcn_host.h` and `rcn_controller.h`:
the 2-byte payload codec, the fixed-capacity send queue of `RCN_Node`, and
the channel tables and update algorithms of `RCN_Host` and `RCN_Controller`.

Machine bytes (`uint8_t`) are modelled as `Nat` with explicit `% 256`
reductions at every point where the C code performs an integral conversion;
C `int` values are modelled as `Int`.  Callback invocations (the host's
`update_filter` calls and the controller's `update_notifier` calls) are
reified as event lists returned alongside the new state, so that "the
callback was invoked exactly once with these arguments" is a statement
about a value.
-/

namespace RCN

/-- The `LIMIT(min, val, max)` macro from `rcn_host.h` / `rcn_controller.h`:
`(min > val ? min : (max < val) ? max : val)`. -/
def LIMIT (lo v hi : Int) : Int :=
  if lo > v then lo else if hi < v then hi else v

/-- `LIMIT 0 v hi` landed in a `uint8_t` (the result is within `[0, hi]`,
so for `hi ≤ 255` the conversion is exact). -/
def clampNat (v : Int) (hi : Nat) : Nat :=
  (LIMIT 0 v hi).toNat

/-- Conversion of a C `int8_t`/`int` value into the byte that storing it in a
`uint8_t` (or in byte 2 of the payload union) produces. -/
def byteOfInt (v : Int) : Nat :=
  (v % 256).toNat

/-- Reading a payload byte back as an `int8_t` (the `rel_level` member of the
union in `RCN_Node::Payload`). -/
def int8OfByte (b : Nat) : Int :=
  if b % 256 < 128 then (b % 256 : Int) else (b % 256 : Int) - 256

/-- `RF12_HDR_DST` from the `<RF12.h>` dependency declared by
`rcn_common.h`: the destination bit of the RFM12B header byte. -/
def RF12_HDR_DST : Nat := 0x40

/-- `RF12_HDR_MASK` from `<RF12.h>`: the node-id mask of the header byte. -/
def RF12_HDR_MASK : Nat := 0x1f

/-- One entry of `RCN_Node::send_buf`: the header byte plus the two payload
bytes of `RCN_Node::Packet` (the `Payload` bit-field viewed through the
byte-array member of the union). -/
structure OutPacket where
  hdr : Nat
  b1 : Nat
  b2 : Nat
deriving DecidableEq

/-- Byte 1 of `RCN_Node::Payload`: channel id in bits 6..0, relative flag in
bit 7 (the declared bit-field layout `channel : 7; relative : 1`). -/
def encodeByte1 (relative : Bool) (channel : Nat) : Nat :=
  (if relative then 128 else 0) + channel % 128

/-- `RCN_Node::send_status_update`: broadcast packet (header carries only the
sending node's id) with an absolute level. -/
def send_status_update (selfNode channel level : Nat) : OutPacket :=
  ⟨RF12_HDR_MASK &&& selfNode, encodeByte1 false channel, level % 256⟩

/-- `RCN_Node::send_update_request_abs`: directed packet with an absolute
level. -/
def send_update_request_abs (host channel level : Nat) : OutPacket :=
  ⟨RF12_HDR_DST ||| (RF12_HDR_MASK &&& host), encodeByte1 false channel,
   level % 256⟩

/-- `RCN_Node::send_update_request_rel`: directed packet with a signed
relative adjustment. -/
def send_update_request_rel (host channel : Nat) (adjust : Int) : OutPacket :=
  ⟨RF12_HDR_DST ||| (RF12_HDR_MASK &&& host), encodeByte1 true channel,
   byteOfInt adjust⟩

/-- `RCN_Node::send_status_request`: defined in the source as
`send_update_request_rel(host, channel, 0)`. -/
def send_status_request (host channel : Nat) : OutPacket :=
  send_update_request_rel host channel 0

/-- `RCN_Node::RecvPacket`: the copied header byte and the two payload
bytes of one received frame. -/
structure RecvPacket where
  h : Nat
  b1 : Nat
  b2 : Nat
deriving DecidableEq

/-- `RecvPacket::bcast()`: `!(h & RF12_HDR_DST)`. -/
def RecvPacket.bcast (p : RecvPacket) : Bool :=
  p.h &&& RF12_HDR_DST == 0

/-- `RecvPacket::node()`: `h & RF12_HDR_MASK`. -/
def RecvPacket.node (p : RecvPacket) : Nat :=
  p.h &&& RF12_HDR_MASK

/-- `RecvPacket::channel()`: the 7-bit `channel` field of the payload. -/
def RecvPacket.channel (p : RecvPacket) : Nat :=
  p.b1 % 256 % 128

/-- `RecvPacket::relative()`: bit 7 of payload byte 1. -/
def RecvPacket.relative (p : RecvPacket) : Bool :=
  decide (128 ≤ p.b1 % 256)

/-- `RecvPacket::abs_level()`: payload byte 2 read as a `uint8_t`. -/
def RecvPacket.abs_level (p : RecvPacket) : Nat :=
  p.b2 % 256

/-- `RecvPacket::rel_level()`: payload byte 2 read as an `int8_t`. -/
def RecvPacket.rel_level (p : RecvPacket) : Int :=
  int8OfByte p.b2

/-- The frame a sent packet arrives as at a receiver (the transport hands
the same three bytes to `RecvPacket::copy`). -/
def recvOfOut (o : OutPacket) : RecvPacket :=
  ⟨o.hdr, o.b1, o.b2⟩

/-- The decoded view of a 2-byte payload, through the `RecvPacket`
accessors: (relative flag, channel id, value), the value read through
`rel_level` when the flag is set and through `abs_level` otherwise. -/
def decodePayload (b1 b2 : Nat) : Bool × Nat × Int :=
  (RecvPacket.relative ⟨0, b1, b2⟩, RecvPacket.channel ⟨0, b1, b2⟩,
   if RecvPacket.relative ⟨0, b1, b2⟩ then RecvPacket.rel_level ⟨0, b1, b2⟩
   else (RecvPacket.abs_level ⟨0, b1, b2⟩ : Int))

/-- The 2-byte payload written by the packet-construction helpers: byte 1
from the bit-field layout, byte 2 the value stored through the
`abs_level`/`rel_level` union member. -/
def mkPayload (relative : Bool) (channel : Nat) (value : Int) : Nat × Nat :=
  (encodeByte1 relative channel, byteOfInt value)

/-- The legal value domain of the wire format: absolute levels are bytes,
relative deltas are signed bytes. -/
def legalValue (relative : Bool) (v : Int) : Prop :=
  if relative then -128 ≤ v ∧ v ≤ 127 else 0 ≤ v ∧ v ≤ 255

/-! ## The send queue of `RCN_Node` -/

/-- `RCN_Node::SEND_BUF_SIZE`. -/
def SEND_BUF_SIZE : Nat := 16

/-- The ring-buffer state of `RCN_Node`: the 16-slot buffer and the
producer (`send_buf_next`) / consumer (`send_buf_done`) indices. -/
structure NodeQueue where
  buf : List OutPacket
  next : Nat
  done : Nat
deriving DecidableEq

/-- A freshly constructed `RCN_Node`: both indices are zero (member
initializers of the constructor); the buffer contents are irrelevant and
modelled as zero bytes. -/
def NodeQueue.init : NodeQueue :=
  ⟨List.replicate SEND_BUF_SIZE ⟨0, 0, 0⟩, 0, 0⟩

/-- `RCN_Node::prepare_packet` together with the caller's writes into the
returned slot: the packet is stored at the producer index, the producer
index advances modulo the capacity, and the returned flag records whether
the overrun warning (`"Oops! Overrunning send_buf!"`) fires, which happens
exactly when the advanced producer index equals the consumer index.  The
source only prints the warning; it neither rejects the packet nor restores
the index. -/
def prepare_packet (s : NodeQueue) (p : OutPacket) : NodeQueue × Bool :=
  let next' := (s.next + 1) % SEND_BUF_SIZE
  (⟨s.buf.set s.next p, next', s.done⟩, next' == s.done)

/-- Enqueue, discarding the warning flag (as every caller in the source
does). -/
def enq (s : NodeQueue) (p : OutPacket) : NodeQueue :=
  (prepare_packet s p).1

/-- How many queued packets the send loop of `RCN_Node::send_and_recv` will
still transmit: it sends from `done` while `next ≠ done`. -/
def NodeQueue.pending (s : NodeQueue) : Nat :=
  (s.next + SEND_BUF_SIZE - s.done) % SEND_BUF_SIZE

/-- The send half of `RCN_Node::send_and_recv` (with the transport ready to
send): if the queue reads as non-empty, transmit the packet at the consumer
index and advance it; otherwise transmit nothing. -/
def drain_one (s : NodeQueue) : NodeQueue × Option OutPacket :=
  if s.next ≠ s.done then
    (⟨s.buf, s.next, (s.done + 1) % SEND_BUF_SIZE⟩, some (s.buf.getD s.done ⟨0, 0, 0⟩))
  else (s, none)

/-! ## `RCN_Host` -/

/-- `RCN_Host::update_filter`: gets (channel, range, aux data, old level,
proposed level), returns the level to store.  All arguments and the result
are `uint8_t` in the source; the result is reduced `% 256` at the point of
storage. -/
abbrev Filter := Nat → Nat → Nat → Nat → Nat → Nat

/-- One invocation of the host's filter callback, with the arguments it was
passed. -/
structure FilterEvent where
  channel : Nat
  range : Nat
  data : Nat
  old : Nat
  proposed : Nat
deriving DecidableEq

/-- The channel table of `RCN_Host`: the active-channel count and the
`range`/`level`/`data` arrays (their first `numChannels` entries), plus the
node id used in broadcast headers. -/
structure HostState where
  nodeId : Nat
  numChannels : Nat
  range : List Nat
  level : List Nat
  data : List Nat
deriving DecidableEq

/-- Lengths of the table arrays match the active-channel count (true in
every state the C object can reach: the arrays are sized by the compile-time
maximum and `numChannels` counts the initialized prefix). -/
def HostState.WF (s : HostState) : Prop :=
  s.range.length = s.numChannels ∧ s.level.length = s.numChannels ∧
    s.data.length = s.numChannels

instance (s : HostState) : Decidable s.WF := by
  unfold HostState.WF; infer_instance

/-- `RCN_Host::set`: clamp the requested value into `[0, range]`, pass it
through the filter, store the filter's return value (a `uint8_t`, hence
`% 256`) WITHOUT re-clamping, and broadcast a status update carrying the
stored level.  Returns the new state, the enqueued broadcasts and the
filter invocations.  The source asserts `channel < num_channels`; all
callers below respect it, and out of range `List.set`/`List.getD` act as
no-ops to keep the function total. -/
def RCN_Host.set (f : Filter) (s : HostState) (channel : Nat) (value : Int) :
    HostState × List OutPacket × List FilterEvent :=
  let r := s.range.getD channel 0
  let old := s.level.getD channel 0
  let d := s.data.getD channel 0
  let proposed := clampNat value r
  let stored := f channel r d old proposed % 256
  ({ s with level := s.level.set channel stored },
   [send_status_update s.nodeId channel stored],
   [⟨channel, r, d, old, proposed⟩])

/-- `RCN_Host::adjust`: `set(channel, level[channel] + delta)` with the sum
computed in `int`. -/
def RCN_Host.adjust (f : Filter) (s : HostState) (channel : Nat) (delta : Int) :
    HostState × List OutPacket × List FilterEvent :=
  RCN_Host.set f s channel ((s.level.getD channel 0 : Int) + delta)

/-- `RCN_Host::add_channel`: record range and aux data for the next free
slot, bump the count, then seed the level through `set` (the level slot
holds 0 beforehand, modelling the zero-initialized storage the C object
lives in). -/
def RCN_Host.add_channel (f : Filter) (s : HostState) (r l d : Nat) :
    HostState × List OutPacket × List FilterEvent :=
  let c := s.numChannels
  RCN_Host.set f
    ⟨s.nodeId, c + 1, s.range ++ [r % 256], s.level ++ [0], s.data ++ [d % 256]⟩
    c (l % 256)

/-- The packet-processing part of `RCN_Host::run`, applied to a
successfully parsed `RecvPacket`: drop if the channel id is not below the
configured count, otherwise `adjust` for a relative payload and `set` for
an absolute one. -/
def RCN_Host.run (f : Filter) (s : HostState) (p : RecvPacket) :
    HostState × List OutPacket × List FilterEvent :=
  if s.numChannels ≤ p.channel then (s, [], [])
  else if p.relative then RCN_Host.adjust f s p.channel p.rel_level
  else RCN_Host.set f s p.channel (p.abs_level : Int)

/-! ## `RCN_Controller` -/

/-- One invocation of the controller's notifier callback, with the
arguments it was passed.  `old` is the cached level at the moment of the
call (the source invokes the notifier BEFORE storing the new level). -/
structure NotifyEvent where
  channel : Nat
  range : Nat
  data : Nat
  old : Nat
  new : Nat
deriving DecidableEq

/-- The cached channel table of `RCN_Controller`. -/
structure CtrlState where
  nChannels : Nat
  range : List Nat
  level : List Nat
  data : List Nat
deriving DecidableEq

/-- Table-array lengths match the active-channel count. -/
def CtrlState.WF (s : CtrlState) : Prop :=
  s.range.length = s.nChannels ∧ s.level.length = s.nChannels ∧
    s.data.length = s.nChannels

instance (s : CtrlState) : Decidable s.WF := by
  unfold CtrlState.WF; infer_instance

/-- `remote_host` from `rcn_controller.h`. -/
def remote_host : Nat := 1

/-- `RCN_Controller::update`: clamp the value into `[0, range]`, invoke the
notifier with the old cached level and the clamped value, then store the
clamped value.  Returns the new state and the notifier invocation (whose
`new` field is the value `update` returns in the source). -/
def RCN_Controller.update (s : CtrlState) (channel : Nat) (value : Int) :
    CtrlState × NotifyEvent :=
  let r := s.range.getD channel 0
  let v := clampNat value r
  ({ s with level := s.level.set channel v },
   ⟨channel, r, s.data.getD channel 0, s.level.getD channel 0, v⟩)

/-- `RCN_Controller::sync`: a status request to `remote_host`. -/
def RCN_Controller.sync (channel : Nat) : OutPacket :=
  send_status_request remote_host channel

/-- `RCN_Controller::set`: local optimistic update, then a directed
absolute update request carrying the value `update` returned. -/
def RCN_Controller.set (s : CtrlState) (channel : Nat) (value : Int) :
    CtrlState × List NotifyEvent × List OutPacket :=
  let (s', e) := RCN_Controller.update s channel value
  (s', [e], [send_update_request_abs remote_host channel e.new])

/-- `RCN_Controller::adjust`: clamp the delta into the `int8_t` range for
transmission, apply the local optimistic update with the UNclamped delta,
and enqueue a directed relative update request only when the clamped delta
is non-zero. -/
def RCN_Controller.adjust (s : CtrlState) (channel : Nat) (delta : Int) :
    CtrlState × List NotifyEvent × List OutPacket :=
  let d := LIMIT (-128) delta 127
  let (s', e) := RCN_Controller.update s channel ((s.level.getD channel 0 : Int) + delta)
  (s', [e],
   if d = 0 then [] else [send_update_request_rel remote_host channel d])

/-- `RCN_Controller::add_channel`: record range, raw initial level and aux
data for the next free slot, bump the count, run `update` on the initial
level (one notifier call), then `sync` (one status request). -/
def RCN_Controller.add_channel (s : CtrlState) (r l d : Nat) :
    CtrlState × List NotifyEvent × List OutPacket :=
  let c := s.nChannels
  let s1 : CtrlState := ⟨c + 1, s.range ++ [r % 256], s.level ++ [l % 256], s.data ++ [d % 256]⟩
  let (s2, e) := RCN_Controller.update s1 c (l % 256)
  (s2, [e], [RCN_Controller.sync c])

/-- The packet-processing part of `RCN_Controller::run`, applied to a
successfully parsed `RecvPacket`: drop if the channel id is not below the
configured count, drop if the relative flag is set, otherwise `update` with
the received absolute level.  The source never inspects `bcast()`. -/
def RCN_Controller.run (s : CtrlState) (p : RecvPacket) :
    CtrlState × List NotifyEvent :=
  if s.nChannels ≤ p.channel then (s, [])
  else if p.relative then (s, [])
  else
    let (s', e) := RCN_Controller.update s p.channel (p.abs_level : Int)
    (s', [e])

/-- The reset loop of `RCN_Controller::wake_up`: `update(i, 0)` for each
index in order. -/
def wakeResetAux : CtrlState → List Nat → CtrlState × List NotifyEvent
  | s, [] => (s, [])
  | s, i :: rest =>
    let (s', e) := RCN_Controller.update s i 0
    let (s'', es) := wakeResetAux s' rest
    (s'', e :: es)

/-- `RCN_Controller::wake_up`: with `reset = true`, zero every cached level
through `update` (one notifier call per channel); otherwise nothing. -/
def RCN_Controller.wake_up (s : CtrlState) (reset : Bool) :
    CtrlState × List NotifyEvent :=
  if reset then wakeResetAux s (List.range s.nChannels) else (s, [])

/-! ## Reachable states -/

/-- One externally observable operation on a host. -/
inductive HostOp
  | addCh (r l d : Nat)
  | setOp (c : Nat) (v : Int)
  | adjOp (c : Nat) (d : Int)
  | runOp (p : RecvPacket)

/-- State transition of one host operation. -/
def hostStep (f : Filter) (s : HostState) : HostOp → HostState
  | .addCh r l d => (RCN_Host.add_channel f s r l d).1
  | .setOp c v => (RCN_Host.set f s c v).1
  | .adjOp c dl => (RCN_Host.adjust f s c dl).1
  | .runOp p => (RCN_Host.run f s p).1

/-- A freshly constructed `RCN_Host` with node id `nid`. -/
def hostInit (nid : Nat) : HostState := ⟨nid, 0, [], [], []⟩

/-- Run a host through a sequence of operations. -/
def hostExec (f : Filter) (s : HostState) : List HostOp → HostState
  | [] => s
  | op :: ops => hostExec f (hostStep f s op) ops

/-- One externally observable operation on a controller. -/
inductive CtrlOp
  | addCh (r l d : Nat)
  | setOp (c : Nat) (v : Int)
  | adjOp (c : Nat) (d : Int)
  | runOp (p : RecvPacket)
  | wakeOp (reset : Bool)
  | syncOp (c : Nat)

/-- State transition of one controller operation (`sync` and `wake_up`
without reset leave the table untouched). -/
def ctrlStep (s : CtrlState) : CtrlOp → CtrlState
  | .addCh r l d => (RCN_Controller.add_channel s r l d).1
  | .setOp c v => (RCN_Controller.set s c v).1
  | .adjOp c dl => (RCN_Controller.adjust s c dl).1
  | .runOp p => (RCN_Controller.run s p).1
  | .wakeOp b => (RCN_Controller.wake_up s b).1
  | .syncOp _ => s

/-- A freshly constructed `RCN_Controller`. -/
def ctrlInit : CtrlState := ⟨0, [], [], []⟩

/-- Run a controller through a sequence of operations. -/
def ctrlExec (s : CtrlState) : List CtrlOp → CtrlState
  | [] => s
  | op :: ops => ctrlExec (ctrlStep s op) ops

/-- The `0 ≤ level ≤ range` invariant for a host table (levels are `Nat`,
so only the upper bound is substantive). -/
def HostInv (s : HostState) : Prop :=
  ∀ i, i < s.numChannels → s.level.getD i 0 ≤ s.range.getD i 0

/-- The `0 ≤ level ≤ range` invariant for a controller table. -/
def CtrlInv (s : CtrlState) : Prop :=
  ∀ i, i < s.nChannels → s.level.getD i 0 ≤ s.range.getD i 0

/-- The documented filter contract from `rcn_host.h`: "any return value
within 0 <= retval <= range is valid". -/
def GoodFilter (f : Filter) : Prop :=
  ∀ c r d o n, f c r d o n ≤ r

/-! ## Helper lemmas -/

theorem LIMIT_le_hi (v hi : Int) (h : 0 ≤ hi) : LIMIT 0 v hi ≤ hi := by
  unfold LIMIT; split
  · exact h
  · split <;> omega

theorem LIMIT_nonneg (v hi : Int) (h : 0 ≤ hi) : 0 ≤ LIMIT 0 v hi := by
  unfold LIMIT; split
  · exact le_refl 0
  · split <;> omega

theorem clampNat_le (v : Int) (hi : Nat) : clampNat v hi ≤ hi := by
  unfold clampNat
  have h1 := LIMIT_le_hi v hi (by positivity)
  omega

theorem clampNat_zero (hi : Nat) : clampNat 0 hi = 0 := by
  unfold clampNat LIMIT
  split
  · omega
  · split <;> omega

theorem clampNat_of_le (v : Int) (hi : Nat) (h0 : 0 ≤ v) (h1 : v ≤ hi) :
    clampNat v hi = v.toNat := by
  unfold clampNat LIMIT
  split
  · omega
  · split <;> omega

theorem clampNat_of_gt (v : Int) (hi : Nat) (h : (hi : Int) < v) :
    clampNat v hi = hi := by
  unfold clampNat LIMIT
  have h0 : ¬ ((0 : Int) > v) := by omega
  rw [if_neg h0, if_pos h]
  omega

theorem getD_set_self (l : List Nat) (i a : Nat) (h : i < l.length) :
    (l.set i a).getD i 0 = a := by
  simp [List.getD_eq_getElem?_getD, List.getElem?_set_eq_of_lt a h]

theorem getD_set_other (l : List Nat) (i j a : Nat) (h : i ≠ j) :
    (l.set i a).getD j 0 = l.getD j 0 := by
  simp [List.getD_eq_getElem?_getD, List.getElem?_set_ne h]

theorem getD_append_self (l : List Nat) (a : Nat) :
    (l ++ [a]).getD l.length 0 = a := by
  simp [List.getD_eq_getElem?_getD]

theorem getD_append_lt (l : List Nat) (a i : Nat) (h : i < l.length) :
    (l ++ [a]).getD i 0 = l.getD i 0 := by
  simp [List.getD_eq_getElem?_getD, List.getElem?_append, h]

/-- The payload bytes of a relative update request are exactly
`mkPayload true`. -/
theorem rel_request_payload (host channel : Nat) (adjust : Int) :
    send_update_request_rel host channel adjust
      = ⟨RF12_HDR_DST ||| (RF12_HDR_MASK &&& host),
         (mkPayload true channel adjust).1, (mkPayload true channel adjust).2⟩ :=
  rfl

/-- The payload bytes of an absolute update request are exactly
`mkPayload false`. -/
theorem abs_request_payload (host channel level : Nat) :
    send_update_request_abs host channel level
      = ⟨RF12_HDR_DST ||| (RF12_HDR_MASK &&& host),
         (mkPayload false channel (level : Int)).1,
         (mkPayload false channel (level : Int)).2⟩ := by
  unfold send_update_request_abs mkPayload byteOfInt
  simp only [OutPacket.mk.injEq, true_and]
  omega

/-- The payload bytes of a status update broadcast are exactly
`mkPayload false`. -/
theorem status_update_payload (selfNode channel level : Nat) :
    send_status_update selfNode channel level
      = ⟨RF12_HDR_MASK &&& selfNode,
         (mkPayload false channel (level : Int)).1,
         (mkPayload false channel (level : Int)).2⟩ := by
  unfold send_status_update mkPayload byteOfInt
  simp only [OutPacket.mk.injEq, true_and]
  omega

theorem decode_mk_abs (channel : Nat) (v : Int) (hc : channel < 128)
    (h0 : 0 ≤ v) (h1 : v ≤ 255) :
    decodePayload (mkPayload false channel v).1 (mkPayload false channel v).2
      = (false, channel, v) := by
  have hb1 : (mkPayload false channel v).1 = channel := by
    show (if (false : Bool) then 128 else 0) + channel % 128 = channel
    simp only [Bool.false_eq_true, if_false]
    omega
  have hb2 : (mkPayload false channel v).2 = v.toNat := by
    show (v % 256).toNat = v.toNat
    omega
  rw [hb1, hb2]
  unfold decodePayload
  have hrel : RecvPacket.relative ⟨0, channel, v.toNat⟩ = false := by
    show decide (128 ≤ channel % 256) = false
    exact decide_eq_false (by omega)
  rw [hrel]
  simp only [Bool.false_eq_true, if_false, Prod.mk.injEq, true_and]
  constructor
  · show channel % 256 % 128 = channel
    omega
  · show ((v.toNat % 256 : Nat) : Int) = v
    omega

theorem decode_mk_rel (channel : Nat) (v : Int) (hc : channel < 128)
    (h0 : -128 ≤ v) (h1 : v ≤ 127) :
    decodePayload (mkPayload true channel v).1 (mkPayload true channel v).2
      = (true, channel, v) := by
  have hb1 : (mkPayload true channel v).1 = 128 + channel := by
    show (if (true : Bool) then 128 else 0) + channel % 128 = 128 + channel
    simp only [if_true]
    omega
  have hb2 : (mkPayload true channel v).2 = (v % 256).toNat := rfl
  rw [hb1, hb2]
  unfold decodePayload
  have hrel : RecvPacket.relative ⟨0, 128 + channel, (v % 256).toNat⟩ = true := by
    show decide (128 ≤ (128 + channel) % 256) = true
    exact decide_eq_true (by omega)
  rw [hrel]
  simp only [if_true, Prod.mk.injEq, true_and]
  constructor
  · show (128 + channel) % 256 % 128 = channel
    omega
  · show (if (v % 256).toNat % 256 < 128 then ((v % 256).toNat % 256 : Nat)
        else ((v % 256).toNat % 256 : Nat) - 256 : Int) = v
    split <;> omega

/-- C4: for every channel in 0..127, every relative flag, and every value in
its legal range (0..255 absolute, -128..127 relative), decoding the 2-byte
encoding of (relative, channel, value) through the `RecvPacket` accessors
yields exactly (relative, channel, value); byte 1 packs the relative flag in
bit 7 and the channel in bits 6..0, and byte 2 holds the value bit-for-bit
(`byteOfInt`). -/
theorem rcn_C4_payload_roundtrip (relative : Bool) (channel : Nat) (v : Int)
    (hc : channel < 128) (hv : legalValue relative v) :
    decodePayload (mkPayload relative channel v).1 (mkPayload relative channel v).2
      = (relative, channel, v)
  ∧ (mkPayload relative channel v).1 = (if relative then 128 else 0) + channel
  ∧ (mkPayload relative channel v).2 = byteOfInt v := by
  have h1 : (mkPayload relative channel v).1
      = (if relative then 128 else 0) + channel := by
    unfold mkPayload encodeByte1
    rw [Nat.mod_eq_of_lt hc]
  refine ⟨?_, h1, rfl⟩
  unfold legalValue at hv
  cases relative with
  | false =>
    simp only [Bool.false_eq_true, if_false] at hv
    exact decode_mk_abs channel v hc hv.1 hv.2
  | true =>
    simp only [if_true] at hv
    exact decode_mk_rel channel v hc hv.1 hv.2

/-- Witness for C4 at channel 5, relative, value -3. -/
theorem rcn_C4_payload_roundtrip_witness :
    ((5 : Nat) < 128 ∧ legalValue true (-3))
  ∧ (decodePayload (mkPayload true 5 (-3)).1 (mkPayload true 5 (-3)).2
       = (true, 5, -3)
     ∧ (mkPayload true 5 (-3)).1 = (if true then 128 else 0) + 5
     ∧ (mkPayload true 5 (-3)).2 = byteOfInt (-3)) :=
  ⟨⟨by omega, by unfold legalValue; simp⟩,
   rcn_C4_payload_roundtrip true 5 (-3) (by omega) (by unfold legalValue; simp)⟩

/-! ## C2: send-queue overflow -/

/-- A distinguishable test packet. -/
def testPkt (i : Nat) : OutPacket := ⟨0, 0, i⟩

/-- C2 (refuted by the code, bug evaluation): starting from a fresh node
whose queue is never drained, 16 consecutive enqueues each store their
packet and advance the producer index; the 16th advance puts the producer
index onto the consumer index (the queue is full in the spec's sense), yet
the packet is neither rejected nor is an oldest entry evicted - the source
only prints a warning.  The queue then reads as empty: nothing is pending
and `drain_one` transmits nothing, so all 16 unsent packets are silently
lost; a 17th enqueue then overwrites the unsent slot 0 while the producer
index advances again. -/
theorem rcn_C2_overflow_corrupts :
    (((List.range 16).map testPkt).foldl enq NodeQueue.init).buf
        = (List.range 16).map testPkt
  ∧ (((List.range 16).map testPkt).foldl enq NodeQueue.init).next
        = (((List.range 16).map testPkt).foldl enq NodeQueue.init).done
  ∧ (((List.range 16).map testPkt).foldl enq NodeQueue.init).pending = 0
  ∧ (drain_one (((List.range 16).map testPkt).foldl enq NodeQueue.init)).2 = none
  ∧ (prepare_packet (((List.range 15).map testPkt).foldl enq NodeQueue.init)
        (testPkt 15)).2 = true
  ∧ (enq (((List.range 16).map testPkt).foldl enq NodeQueue.init)
        (testPkt 16)).buf.getD 0 ⟨0, 0, 0⟩ = testPkt 16
  ∧ (enq (((List.range 16).map testPkt).foldl enq NodeQueue.init)
        (testPkt 16)).next = 1 := by
  decide

/-! ## Characterization lemmas for the run paths -/

theorem host_run_drop (f : Filter) (s : HostState) (p : RecvPacket)
    (h : s.numChannels ≤ p.channel) :
    RCN_Host.run f s p = (s, [], []) := by
  unfold RCN_Host.run
  rw [if_pos h]

theorem host_run_rel (f : Filter) (s : HostState) (p : RecvPacket)
    (hch : p.channel < s.numChannels) (hrel : p.relative = true) :
    RCN_Host.run f s p = RCN_Host.adjust f s p.channel p.rel_level := by
  unfold RCN_Host.run
  rw [if_neg (by omega), if_pos hrel]

theorem host_run_abs (f : Filter) (s : HostState) (p : RecvPacket)
    (hch : p.channel < s.numChannels) (hrel : p.relative = false) :
    RCN_Host.run f s p = RCN_Host.set f s p.channel (p.abs_level : Int) := by
  unfold RCN_Host.run
  rw [if_neg (by omega), if_neg (by simp [hrel])]

theorem ctrl_run_drop_unknown (s : CtrlState) (p : RecvPacket)
    (h : s.nChannels ≤ p.channel) :
    RCN_Controller.run s p = (s, []) := by
  unfold RCN_Controller.run
  rw [if_pos h]

theorem ctrl_run_drop_rel (s : CtrlState) (p : RecvPacket)
    (hch : p.channel < s.nChannels) (hrel : p.relative = true) :
    RCN_Controller.run s p = (s, []) := by
  unfold RCN_Controller.run
  rw [if_neg (by omega), if_pos hrel]

theorem ctrl_run_accept (s : CtrlState) (p : RecvPacket)
    (hch : p.channel < s.nChannels) (hrel : p.relative = false) :
    RCN_Controller.run s p
      = ((RCN_Controller.update s p.channel (p.abs_level : Int)).1,
         [(RCN_Controller.update s p.channel (p.abs_level : Int)).2]) := by
  unfold RCN_Controller.run
  rw [if_neg (by omega), if_neg (by simp [hrel])]

/-- `RCN_Host::set` always enqueues exactly the one status update carrying
the level it just stored. -/
theorem host_set_one_broadcast (f : Filter) (s : HostState) (c : Nat) (v : Int)
    (h : c < s.level.length) :
    ((RCN_Host.set f s c v).2.1).length = 1
  ∧ (RCN_Host.set f s c v).2.1
      = [send_status_update s.nodeId c ((RCN_Host.set f s c v).1.level.getD c 0)] := by
  constructor
  · rfl
  · simp only [RCN_Host.set]
    rw [getD_set_self _ _ _ h]

/-- C3: every successfully parsed inbound packet for a known channel makes
the Host enqueue exactly one status-update broadcast, carrying the level
stored after the filter ran - for every filter, and for absolute, relative
and status-request (relative, 0) payloads alike. -/
theorem rcn_C3_exactly_one_broadcast (f : Filter) (s : HostState) (p : RecvPacket)
    (hWF : s.level.length = s.numChannels) (hch : p.channel < s.numChannels) :
    ((RCN_Host.run f s p).2.1).length = 1
  ∧ (RCN_Host.run f s p).2.1
      = [send_status_update s.nodeId p.channel
           ((RCN_Host.run f s p).1.level.getD p.channel 0)] := by
  by_cases hrel : p.relative = true
  · rw [host_run_rel f s p hch hrel]
    unfold RCN_Host.adjust
    exact host_set_one_broadcast f s p.channel _ (by omega)
  · rw [host_run_abs f s p hch (by simpa using hrel)]
    exact host_set_one_broadcast f s p.channel _ (by omega)

/-- Witness for C3: one-channel host, identity-adopting filter, absolute
request for channel 0 with value 7. -/
theorem rcn_C3_exactly_one_broadcast_witness :
    ((⟨1, 1, [10], [5], [0]⟩ : HostState).level.length
        = (⟨1, 1, [10], [5], [0]⟩ : HostState).numChannels
     ∧ (⟨0, 0, 7⟩ : RecvPacket).channel
        < (⟨1, 1, [10], [5], [0]⟩ : HostState).numChannels)
  ∧ (((RCN_Host.run (fun _ _ _ _ n => n) ⟨1, 1, [10], [5], [0]⟩ ⟨0, 0, 7⟩).2.1).length = 1
     ∧ (RCN_Host.run (fun _ _ _ _ n => n) ⟨1, 1, [10], [5], [0]⟩ ⟨0, 0, 7⟩).2.1
         = [send_status_update 1 (RecvPacket.channel ⟨0, 0, 7⟩)
              ((RCN_Host.run (fun _ _ _ _ n => n) ⟨1, 1, [10], [5], [0]⟩ ⟨0, 0, 7⟩).1.level.getD
                 (RecvPacket.channel ⟨0, 0, 7⟩) 0)]) :=
  ⟨⟨rfl, by decide⟩,
   rcn_C3_exactly_one_broadcast (fun _ _ _ _ n => n) ⟨1, 1, [10], [5], [0]⟩ ⟨0, 0, 7⟩
     rfl (by decide)⟩

/-- C8: an inbound packet whose channel id is at or above the configured
count leaves the Host table and the Controller table untouched, enqueues
nothing, and invokes no filter or notifier callback. -/
theorem rcn_C8_unknown_channel_no_effect (f : Filter) (hs : HostState)
    (cs : CtrlState) (p : RecvPacket)
    (hh : hs.numChannels ≤ p.channel) (hc : cs.nChannels ≤ p.channel) :
    RCN_Host.run f hs p = (hs, [], []) ∧ RCN_Controller.run cs p = (cs, []) :=
  ⟨host_run_drop f hs p hh, ctrl_run_drop_unknown cs p hc⟩

/-- Witness for C8: one-channel tables, packet for channel 5. -/
theorem rcn_C8_unknown_channel_no_effect_witness :
    ((⟨1, 1, [10], [5], [0]⟩ : HostState).numChannels
        ≤ (⟨0, 5, 7⟩ : RecvPacket).channel
     ∧ (⟨1, [10], [5], [0]⟩ : CtrlState).nChannels
        ≤ (⟨0, 5, 7⟩ : RecvPacket).channel)
  ∧ (RCN_Host.run (fun _ _ _ _ n => n) ⟨1, 1, [10], [5], [0]⟩ ⟨0, 5, 7⟩
       = (⟨1, 1, [10], [5], [0]⟩, [], [])
     ∧ RCN_Controller.run ⟨1, [10], [5], [0]⟩ ⟨0, 5, 7⟩
       = (⟨1, [10], [5], [0]⟩, [])) :=
  ⟨⟨by decide, by decide⟩,
   rcn_C8_unknown_channel_no_effect (fun _ _ _ _ n => n) ⟨1, 1, [10], [5], [0]⟩
     ⟨1, [10], [5], [0]⟩ ⟨0, 5, 7⟩ (by decide) (by decide)⟩

/-- C6: the status-request packet is byte-for-byte the relative update
request with delta 0 to the same host and channel (the source defines it by
that very call), and the Host handles its decoded form through the same
uniform request path - producing exactly one broadcast - as it does any
other request. -/
theorem rcn_C6_status_request_equiv (host channel : Nat) (f : Filter)
    (s : HostState) (hWF : s.level.length = s.numChannels)
    (hch : channel % 128 < s.numChannels) :
    send_status_request host channel = send_update_request_rel host channel 0
  ∧ RCN_Host.run f s (recvOfOut (send_status_request host channel))
      = RCN_Host.run f s (recvOfOut (send_update_request_rel host channel 0))
  ∧ ((RCN_Host.run f s (recvOfOut (send_status_request host channel))).2.1).length = 1 := by
  refine ⟨rfl, rfl, ?_⟩
  have hpch : (recvOfOut (send_status_request host channel)).channel = channel % 128 := by
    show (128 + channel % 128) % 256 % 128 = channel % 128
    omega
  have hrel : (recvOfOut (send_status_request host channel)).relative = true := by
    show decide (128 ≤ (128 + channel % 128) % 256) = true
    exact decide_eq_true (by omega)
  rw [host_run_rel f s _ (by omega) hrel]
  unfold RCN_Host.adjust
  rw [hpch]
  exact (host_set_one_broadcast f s (channel % 128) _ (by omega)).1

/-- Witness for C6 at host 1, channel 0, on a one-channel host. -/
theorem rcn_C6_status_request_equiv_witness :
    ((⟨1, 1, [10], [5], [0]⟩ : HostState).level.length
        = (⟨1, 1, [10], [5], [0]⟩ : HostState).numChannels
     ∧ 0 % 128 < (⟨1, 1, [10], [5], [0]⟩ : HostState).numChannels)
  ∧ (send_status_request 1 0 = send_update_request_rel 1 0 0
     ∧ RCN_Host.run (fun _ _ _ _ n => n) ⟨1, 1, [10], [5], [0]⟩
         (recvOfOut (send_status_request 1 0))
        = RCN_Host.run (fun _ _ _ _ n => n) ⟨1, 1, [10], [5], [0]⟩
            (recvOfOut (send_update_request_rel 1 0 0))
     ∧ ((RCN_Host.run (fun _ _ _ _ n => n) ⟨1, 1, [10], [5], [0]⟩
          (recvOfOut (send_status_request 1 0))).2.1).length = 1) :=
  ⟨⟨rfl, by decide⟩,
   rcn_C6_status_request_equiv 1 0 (fun _ _ _ _ n => n) ⟨1, 1, [10], [5], [0]⟩
     rfl (by decide)⟩

/-! ## C5: what the Controller's run accepts -/

/-- A one-channel controller cache: range 10, level 5, aux 0. -/
def c5Cache : CtrlState := ⟨1, [10], [5], [0]⟩

/-- A DIRECTED packet (destination bit set, addressed to node 2) carrying
an absolute level 7 for channel 0. -/
def c5Directed : RecvPacket := ⟨RF12_HDR_DST ||| 2, 0, 7⟩

/-- C5 as stated is false: `RCN_Controller::run` never inspects the
broadcast/directed bit, so a directed (non-broadcast) packet with the
relative flag unset and a known channel id mutates the cache. -/
theorem rcn_C5_counterexample :
    c5Directed.bcast = false
  ∧ (RCN_Controller.run c5Cache c5Directed).1 ≠ c5Cache
  ∧ (RCN_Controller.run c5Cache c5Directed).1.level = [7] := by
  decide

/-- C5 amended: the Controller's `run()` mutates its cache exactly for
packets whose relative flag is unset and whose channel id is below the
configured count; relative-flagged packets and out-of-range channel ids are
dropped without any cache change.  The broadcast/directed origin is never
inspected: the outcome is identical for any header byte. -/
theorem rcn_C5_amended (s : CtrlState) (p : RecvPacket) (h' : Nat) :
    RCN_Controller.run s ⟨h', p.b1, p.b2⟩ = RCN_Controller.run s p
  ∧ (p.relative = true → RCN_Controller.run s p = (s, []))
  ∧ (s.nChannels ≤ p.channel → RCN_Controller.run s p = (s, []))
  ∧ (p.relative = false → p.channel < s.nChannels →
      RCN_Controller.run s p
        = ((RCN_Controller.update s p.channel (p.abs_level : Int)).1,
           [(RCN_Controller.update s p.channel (p.abs_level : Int)).2])) := by
  refine ⟨rfl, ?_, ?_, ?_⟩
  · intro hrel
    by_cases hch : p.channel < s.nChannels
    · exact ctrl_run_drop_rel s p hch hrel
    · exact ctrl_run_drop_unknown s p (by omega)
  · exact ctrl_run_drop_unknown s p
  · exact fun hrel hch => ctrl_run_accept s p hch hrel

/-- Witness for the amended C5: a broadcast absolute update for a known
channel is applied through `update`. -/
theorem rcn_C5_amended_witness :
    RCN_Controller.run c5Cache ⟨0, 0, 7⟩
      = ((RCN_Controller.update c5Cache (RecvPacket.channel ⟨0, 0, 7⟩) 7).1,
         [(RCN_Controller.update c5Cache (RecvPacket.channel ⟨0, 0, 7⟩) 7).2]) :=
  (rcn_C5_amended c5Cache ⟨0, 0, 7⟩ 0).2.2.2 (by decide) (by decide)

theorem LIMIT_mem (lo v hi : Int) (h : lo ≤ hi) :
    lo ≤ LIMIT lo v hi ∧ LIMIT lo v hi ≤ hi := by
  unfold LIMIT
  split
  · omega
  · split <;> omega

/-- C7: `RCN_Controller::adjust` clamps the transmitted delta into the
signed-byte range -128..127, applies exactly the local optimistic update
that `set(channel, level + delta)` would (same new state, same single
notifier call, with the UNclamped delta), and enqueues the directed
relative update request if and only if the clamped delta is non-zero. -/
theorem rcn_C7_adjust (s : CtrlState) (c : Nat) (delta : Int) :
    (-128 ≤ LIMIT (-128) delta 127 ∧ LIMIT (-128) delta 127 ≤ 127)
  ∧ (RCN_Controller.adjust s c delta).1
      = (RCN_Controller.set s c ((s.level.getD c 0 : Int) + delta)).1
  ∧ (RCN_Controller.adjust s c delta).2.1
      = (RCN_Controller.set s c ((s.level.getD c 0 : Int) + delta)).2.1
  ∧ (RCN_Controller.adjust s c delta).2.2
      = (if LIMIT (-128) delta 127 = 0 then []
         else [send_update_request_rel remote_host c (LIMIT (-128) delta 127)]) :=
  ⟨LIMIT_mem (-128) delta 127 (by omega), rfl, rfl, rfl⟩

/-- C9: when the Controller accepts a status-update broadcast reporting
absolute level `v` for a known channel, it stores `clamp(0, v, range)`
computed against its own locally registered range - a reported level above
the local range is silently clipped to the local range, not stored as
`v`. -/
theorem rcn_C9_cache_clamped_locally (s : CtrlState) (p : RecvPacket)
    (hWF : s.level.length = s.nChannels) (hch : p.channel < s.nChannels)
    (hrel : p.relative = false) :
    (RCN_Controller.run s p).1.level.getD p.channel 0
      = clampNat (p.abs_level : Int) (s.range.getD p.channel 0)
  ∧ (s.range.getD p.channel 0 < p.abs_level →
      (RCN_Controller.run s p).1.level.getD p.channel 0
        = s.range.getD p.channel 0) := by
  have h1 : (RCN_Controller.run s p).1.level.getD p.channel 0
      = clampNat (p.abs_level : Int) (s.range.getD p.channel 0) := by
    rw [ctrl_run_accept s p hch hrel]
    simp only [RCN_Controller.update]
    exact getD_set_self _ _ _ (by omega)
  refine ⟨h1, fun hgt => ?_⟩
  rw [h1]
  exact clampNat_of_gt _ _ (by omega)

/-- Witness for C9: range 10, broadcast reports level 200, cache stores
10. -/
theorem rcn_C9_cache_clamped_locally_witness :
    ((⟨1, [10], [5], [0]⟩ : CtrlState).level.length
        = (⟨1, [10], [5], [0]⟩ : CtrlState).nChannels
     ∧ (⟨0, 0, 200⟩ : RecvPacket).channel < (⟨1, [10], [5], [0]⟩ : CtrlState).nChannels
     ∧ (⟨0, 0, 200⟩ : RecvPacket).relative = false)
  ∧ (RCN_Controller.run ⟨1, [10], [5], [0]⟩ ⟨0, 0, 200⟩).1.level.getD
        (RecvPacket.channel ⟨0, 0, 200⟩) 0 = 10 :=
  ⟨⟨rfl, by decide, by decide⟩,
   ((rcn_C9_cache_clamped_locally ⟨1, [10], [5], [0]⟩ ⟨0, 0, 200⟩ rfl
       (by decide) (by decide)).2 (by decide)).trans (by decide)⟩

/-! ## C10: notifier discipline of every controller cache write -/

theorem wakeResetAux_cons (s : CtrlState) (i : Nat) (rest : List Nat) :
    wakeResetAux s (i :: rest)
      = ((wakeResetAux (RCN_Controller.update s i 0).1 rest).1,
         (RCN_Controller.update s i 0).2
           :: (wakeResetAux (RCN_Controller.update s i 0).1 rest).2) := by
  simp [wakeResetAux]

theorem update_zero_event (s : CtrlState) (i : Nat) :
    (RCN_Controller.update s i 0).2
      = ⟨i, s.range.getD i 0, s.data.getD i 0, s.level.getD i 0, 0⟩ := by
  simp only [RCN_Controller.update]
  rw [clampNat_zero]

theorem wakeResetAux_events (l : List Nat) (s : CtrlState)
    (hb : ∀ i ∈ l, i < s.level.length) (hnd : l.Nodup) :
    (wakeResetAux s l).2
      = l.map (fun i =>
          ⟨i, s.range.getD i 0, s.data.getD i 0, s.level.getD i 0, 0⟩) := by
  induction l generalizing s with
  | nil => rfl
  | cons i rest ih =>
    rw [wakeResetAux_cons, List.map_cons, update_zero_event]
    have hni : i ∉ rest := (List.nodup_cons.mp hnd).1
    have hrest : (wakeResetAux (RCN_Controller.update s i 0).1 rest).2
        = rest.map (fun j =>
            ⟨j, s.range.getD j 0, s.data.getD j 0, s.level.getD j 0, 0⟩) := by
      rw [ih (RCN_Controller.update s i 0).1
        (by
          intro j hj
          have := hb j (List.mem_cons_of_mem i hj)
          simpa only [RCN_Controller.update, List.length_set] using this)
        (List.nodup_cons.mp hnd).2]
      apply List.map_congr_left
      intro j hj
      have hij : i ≠ j := fun h => hni (h ▸ hj)
      simp only [RCN_Controller.update]
      rw [getD_set_other _ _ _ _ hij]
    rw [hrest]

/-- C10: every controller cache write - from `set`, `adjust`, an accepted
broadcast in `run`, `add_channel`, or `wake_up` with reset - invokes the
notifier exactly once (per written channel) with the cached level at the
moment of the call (the source calls the notifier BEFORE storing, which the
event's `old` field records) and the new clamped level, with no
notify-only-on-change suppression. -/
theorem rcn_C10_notifier_exactly_once (s : CtrlState) (c r l d : Nat)
    (v delta : Int) (p : RecvPacket)
    (hWF : s.range.length = s.nChannels ∧ s.level.length = s.nChannels
         ∧ s.data.length = s.nChannels) :
    (RCN_Controller.set s c v).2.1
        = [⟨c, s.range.getD c 0, s.data.getD c 0, s.level.getD c 0,
            clampNat v (s.range.getD c 0)⟩]
  ∧ (RCN_Controller.adjust s c delta).2.1
        = [⟨c, s.range.getD c 0, s.data.getD c 0, s.level.getD c 0,
            clampNat ((s.level.getD c 0 : Int) + delta) (s.range.getD c 0)⟩]
  ∧ (p.relative = false → p.channel < s.nChannels →
      (RCN_Controller.run s p).2
        = [⟨p.channel, s.range.getD p.channel 0, s.data.getD p.channel 0,
            s.level.getD p.channel 0,
            clampNat (p.abs_level : Int) (s.range.getD p.channel 0)⟩])
  ∧ (RCN_Controller.add_channel s r l d).2.1
        = [⟨s.nChannels, r % 256, d % 256, l % 256,
            clampNat (l % 256 : Nat) (r % 256)⟩]
  ∧ (RCN_Controller.wake_up s true).2
        = (List.range s.nChannels).map
            (fun i => ⟨i, s.range.getD i 0, s.data.getD i 0, s.level.getD i 0, 0⟩) := by
  obtain ⟨hr, hl, hd⟩ := hWF
  refine ⟨rfl, rfl, ?_, ?_, ?_⟩
  · intro hrel hch
    rw [ctrl_run_accept s p hch hrel]
    rfl
  · show [(RCN_Controller.update
        ⟨s.nChannels + 1, s.range ++ [r % 256], s.level ++ [l % 256],
         s.data ++ [d % 256]⟩ s.nChannels (l % 256 : Nat)).2] = _
    simp only [RCN_Controller.update]
    have h1 : (s.range ++ [r % 256]).getD s.nChannels 0 = r % 256 := by
      rw [← hr]; exact getD_append_self _ _
    have h2 : (s.data ++ [d % 256]).getD s.nChannels 0 = d % 256 := by
      rw [← hd]; exact getD_append_self _ _
    have h3 : (s.level ++ [l % 256]).getD s.nChannels 0 = l % 256 := by
      rw [← hl]; exact getD_append_self _ _
    rw [h1, h2, h3]
  · show (wakeResetAux s (List.range s.nChannels)).2 = _
    exact wakeResetAux_events (List.range s.nChannels) s
      (fun i hi => by rw [hl]; exact List.mem_range.mp hi)
      (List.nodup_range _)

/-- Witness for C10 on a one-channel cache: `set` to 7, an accepted
broadcast of 7, and a resetting wake-up each fire the notifier exactly
once with the recorded old/new pair. -/
theorem rcn_C10_notifier_exactly_once_witness :
    (RCN_Controller.set ⟨1, [10], [5], [0]⟩ 0 7).2.1 = [⟨0, 10, 0, 5, 7⟩]
  ∧ (RCN_Controller.run ⟨1, [10], [5], [0]⟩ ⟨0, 0, 7⟩).2 = [⟨0, 10, 0, 5, 7⟩]
  ∧ (RCN_Controller.wake_up ⟨1, [10], [5], [0]⟩ true).2 = [⟨0, 10, 0, 5, 0⟩] :=
  ⟨((rcn_C10_notifier_exactly_once ⟨1, [10], [5], [0]⟩ 0 20 30 2 7 (-2) ⟨0, 0, 7⟩
      ⟨rfl, rfl, rfl⟩).1).trans (by decide),
   ((rcn_C10_notifier_exactly_once ⟨1, [10], [5], [0]⟩ 0 20 30 2 7 (-2) ⟨0, 0, 7⟩
      ⟨rfl, rfl, rfl⟩).2.2.1 (by decide) (by decide)).trans (by decide),
   ((rcn_C10_notifier_exactly_once ⟨1, [10], [5], [0]⟩ 0 20 30 2 7 (-2) ⟨0, 0, 7⟩
      ⟨rfl, rfl, rfl⟩).2.2.2.2).trans (by decide)⟩

/-! ## C1: the level-within-range invariant -/

theorem getD_mem (l : List Nat) (i : Nat) (h : i < l.length) : l.getD i 0 ∈ l := by
  rw [List.getD_eq_getElem?_getD, List.getElem?_eq_getElem h]
  exact List.getElem_mem h

/-- Inductive invariant for host states: well-formed lengths, byte-sized
ranges, and levels within ranges. -/
def HostGood (s : HostState) : Prop :=
  s.WF ∧ (∀ x ∈ s.range, x < 256) ∧ HostInv s

/-- Inductive invariant for controller states. -/
def CtrlGood (s : CtrlState) : Prop :=
  s.WF ∧ CtrlInv s

theorem host_set_preserves (f : Filter) (hf : GoodFilter f) (s : HostState)
    (c : Nat) (v : Int) (hg : HostGood s) :
    HostGood (RCN_Host.set f s c v).1 := by
  obtain ⟨⟨hr, hl, hd⟩, h256, hinv⟩ := hg
  simp only [HostGood, HostState.WF, HostInv, RCN_Host.set, List.length_set]
  refine ⟨⟨hr, hl, hd⟩, h256, ?_⟩
  intro i hi
  by_cases hic : c = i
  · subst hic
    have hcl : c < s.level.length := by omega
    rw [getD_set_self _ _ _ hcl]
    have hle := hf c (s.range.getD c 0) (s.data.getD c 0) (s.level.getD c 0)
      (clampNat v (s.range.getD c 0))
    have hlt : s.range.getD c 0 < 256 := h256 _ (getD_mem _ _ (by omega))
    rw [Nat.mod_eq_of_lt (by omega)]
    exact hle
  · rw [getD_set_other _ _ _ _ hic]
    exact hinv i hi

theorem host_add_preserves (f : Filter) (hf : GoodFilter f) (s : HostState)
    (r l d : Nat) (hg : HostGood s) :
    HostGood (RCN_Host.add_channel f s r l d).1 := by
  obtain ⟨⟨hr, hl, hd⟩, h256, hinv⟩ := hg
  apply host_set_preserves f hf _ _ _ ?_
  refine ⟨⟨by simp [hr], by simp [hl], by simp [hd]⟩, ?_, ?_⟩
  · intro x hx
    rcases List.mem_append.mp hx with h | h
    · exact h256 x h
    · have : x = r % 256 := by simpa using h
      omega
  · intro i hi
    simp only at hi
    by_cases hlt : i < s.numChannels
    · rw [getD_append_lt _ _ _ (by omega), getD_append_lt _ _ _ (by omega)]
      exact hinv i hlt
    · have hie : i = s.numChannels := by omega
      subst hie
      have e1 : (s.level ++ [0]).getD s.numChannels 0 = 0 := by
        rw [← hl]; exact getD_append_self _ _
      rw [e1]
      exact Nat.zero_le _

theorem host_step_preserves (f : Filter) (hf : GoodFilter f) (s : HostState)
    (op : HostOp) (hg : HostGood s) : HostGood (hostStep f s op) := by
  cases op with
  | addCh r l d => exact host_add_preserves f hf s r l d hg
  | setOp c v => exact host_set_preserves f hf s c v hg
  | adjOp c dl => exact host_set_preserves f hf s c _ hg
  | runOp p =>
    show HostGood (RCN_Host.run f s p).1
    by_cases hch : p.channel < s.numChannels
    · by_cases hrel : p.relative = true
      · rw [host_run_rel f s p hch hrel]
        exact host_set_preserves f hf s p.channel _ hg
      · rw [host_run_abs f s p hch (by simpa using hrel)]
        exact host_set_preserves f hf s p.channel _ hg
    · rw [host_run_drop f s p (by omega)]
      exact hg

theorem host_exec_preserves (f : Filter) (hf : GoodFilter f) (s : HostState)
    (ops : List HostOp) (hg : HostGood s) : HostGood (hostExec f s ops) := by
  induction ops generalizing s with
  | nil => exact hg
  | cons op ops ih => exact ih _ (host_step_preserves f hf s op hg)

theorem hostInit_good (nid : Nat) : HostGood (hostInit nid) :=
  ⟨⟨rfl, rfl, rfl⟩, fun x hx => absurd hx (List.not_mem_nil x),
   fun i hi => absurd hi (Nat.not_lt_zero i)⟩

theorem ctrl_update_preserves (s : CtrlState) (c : Nat) (value : Int)
    (hg : CtrlGood s) : CtrlGood (RCN_Controller.update s c value).1 := by
  obtain ⟨⟨hr, hl, hd⟩, hinv⟩ := hg
  simp only [CtrlGood, CtrlState.WF, CtrlInv, RCN_Controller.update, List.length_set]
  refine ⟨⟨hr, hl, hd⟩, ?_⟩
  intro i hi
  by_cases hic : c = i
  · subst hic
    rw [getD_set_self _ _ _ (by omega)]
    exact clampNat_le _ _
  · rw [getD_set_other _ _ _ _ hic]
    exact hinv i hi

theorem ctrl_add_preserves (s : CtrlState) (r l d : Nat) (hg : CtrlGood s) :
    CtrlGood (RCN_Controller.add_channel s r l d).1 := by
  obtain ⟨⟨hr, hl, hd⟩, hinv⟩ := hg
  show CtrlGood (RCN_Controller.update
    ⟨s.nChannels + 1, s.range ++ [r % 256], s.level ++ [l % 256],
     s.data ++ [d % 256]⟩ s.nChannels (l % 256 : Nat)).1
  simp only [CtrlGood, CtrlState.WF, CtrlInv, RCN_Controller.update, List.length_set]
  refine ⟨⟨by simp [hr], by simp [hl], by simp [hd]⟩, ?_⟩
  intro i hi
  by_cases hic : s.nChannels = i
  · subst hic
    rw [getD_set_self _ _ _ (by simp [hl])]
    exact clampNat_le _ _
  · rw [getD_set_other _ _ _ _ hic]
    by_cases hlt : i < s.nChannels
    · rw [getD_append_lt _ _ _ (by omega), getD_append_lt _ _ _ (by omega)]
      exact hinv i hlt
    · omega

theorem wakeResetAux_preserves (l : List Nat) (s : CtrlState) (hg : CtrlGood s) :
    CtrlGood (wakeResetAux s l).1 := by
  induction l generalizing s with
  | nil => exact hg
  | cons i rest ih =>
    rw [wakeResetAux_cons]
    exact ih _ (ctrl_update_preserves s i 0 hg)

theorem ctrl_step_preserves (s : CtrlState) (op : CtrlOp) (hg : CtrlGood s) :
    CtrlGood (ctrlStep s op) := by
  cases op with
  | addCh r l d => exact ctrl_add_preserves s r l d hg
  | setOp c v => exact ctrl_update_preserves s c v hg
  | adjOp c dl => exact ctrl_update_preserves s c _ hg
  | runOp p =>
    show CtrlGood (RCN_Controller.run s p).1
    by_cases hch : p.channel < s.nChannels
    · by_cases hrel : p.relative = true
      · rw [ctrl_run_drop_rel s p hch hrel]
        exact hg
      · rw [ctrl_run_accept s p hch (by simpa using hrel)]
        exact ctrl_update_preserves s p.channel _ hg
    · rw [ctrl_run_drop_unknown s p (by omega)]
      exact hg
  | wakeOp b =>
    cases b with
    | false => exact hg
    | true =>
      show CtrlGood (wakeResetAux s (List.range s.nChannels)).1
      exact wakeResetAux_preserves _ s hg
  | syncOp c => exact hg

theorem ctrl_exec_preserves (s : CtrlState) (ops : List CtrlOp)
    (hg : CtrlGood s) : CtrlGood (ctrlExec s ops) := by
  induction ops generalizing s with
  | nil => exact hg
  | cons op ops ih => exact ih _ (ctrl_step_preserves s op hg)

theorem ctrlInit_good : CtrlGood ctrlInit :=
  ⟨⟨rfl, rfl, rfl⟩, fun i hi => absurd hi (Nat.not_lt_zero i)⟩

/-- A filter that always returns 200, regardless of the declared range. -/
def badFilter : Filter := fun _ _ _ _ _ => 200

/-- The host state after `add_channel(range = 10, level = 5)` under
`badFilter`. -/
def c1BadState : HostState :=
  hostExec badFilter (hostInit 1) [HostOp.addCh 10 5 0]

/-- C1 as stated is false: the Host stores the filter's return value
without re-clamping, so under a filter that ignores the range contract a
single `add_channel(10, 5)` yields a channel with level 200 and range 10,
violating `0 ≤ level ≤ range` at an observable time. -/
theorem rcn_C1_counterexample :
    c1BadState.numChannels = 1 ∧ c1BadState.range = [10]
  ∧ c1BadState.level = [200] ∧ ¬ HostInv c1BadState :=
  ⟨by decide, by decide, by decide,
   fun h => absurd (h 0 (by decide)) (by decide)⟩

/-- C1 amended: at every observable time (after construction and after
every `add_channel`/`set`/`adjust`/`run`/`wake_up`/`sync` step),
`0 ≤ level ≤ range` holds for every channel of every Controller table
unconditionally (for every notifier and inbound-packet sequence), and for
every channel of every Host table provided the filter obeys its documented
contract of returning a value within `0 ≤ retval ≤ range` - the Host
stores the filter's return value without re-clamping, so the invariant is
conditional on that contract. -/
theorem rcn_C1_invariant (f : Filter) (hf : GoodFilter f) (nid : Nat)
    (hops : List HostOp) (cops : List CtrlOp) :
    HostInv (hostExec f (hostInit nid) hops)
  ∧ CtrlInv (ctrlExec ctrlInit cops) :=
  ⟨(host_exec_preserves f hf (hostInit nid) hops (hostInit_good nid)).2.2,
   (ctrl_exec_preserves ctrlInit cops ctrlInit_good).2⟩

/-- A filter that respects the range contract. -/
def minFilter : Filter := fun _ r _ _ n => min n r

/-- Witness for the amended C1: one `add_channel(10, 5)` on each side under
the contract-respecting `minFilter`. -/
theorem rcn_C1_invariant_witness :
    HostInv (hostExec minFilter (hostInit 1) [HostOp.addCh 10 5 0])
  ∧ CtrlInv (ctrlExec ctrlInit [CtrlOp.addCh 10 5 0]) :=
  rcn_C1_invariant minFilter (fun _ r _ _ n => Nat.min_le_right n r) 1
    [HostOp.addCh 10 5 0] [CtrlOp.addCh 10 5 0]

end RCN
